import Mathlib

/-!
Verification of the ipl-auction repository's auction ledger.

The embedding models the relational state of the v7.1 schema
(file src/unnamed/part_001): tables `teams`, `players`, `auctions`,
each row carrying an `auction_event_id`, and the operations that
mutate them:

* `sell_player`       — plpgsql function, src/unnamed/part_001 lines 188-230
* `unsoldPlayer`      — src/src/components/Dashboard/AuctionPanel.tsx lines 109-125
* `startAuction`      — src/src/components/Dashboard/AuctionPanel.tsx lines 37-69
* `updateBid`         — src/unnamed/part_007 lines 130-142
* `updateBidPanel`    — src/src/components/Dashboard/AuctionPanel.tsx lines 71-75
* `resetPurse`        — src/src/components/Dashboard/EditTeamModal.tsx lines 51-85

SQL `UPDATE t SET ... WHERE k = v` is modelled as a `List.map` that
rewrites every matching row; `SELECT ... INTO x ... WHERE k = v` as
`List.find?`; a plpgsql `RAISE EXCEPTION` as an `Except.error`
(aborting the transaction, so the caller's state is unchanged);
uuid keys as `Nat`; `bigint` as `Int`.  plpgsql `IF x THEN` where
`x` is NULL does not take the branch, which is why the two guards of
`sell_player` treat a missing row as `false`.
-/

namespace IplAuction

/-- A row of `public.teams` (src/unnamed/part_001 lines 57-70). -/
structure Team where
  id : Nat
  auction_event_id : Nat
  purse_remaining : Int
  total_purse : Int
  players_count : Int
deriving DecidableEq

/-- A row of `public.players` (src/unnamed/part_001 lines 72-87). -/
structure Player where
  id : Nat
  auction_event_id : Nat
  base_price : Int
  current_price : Option Int
  team_id : Option Nat
  is_sold : Bool
deriving DecidableEq

/-- A row of `public.auctions` (src/unnamed/part_001 lines 89-98); the
`player_id` column is declared `NOT NULL UNIQUE`. -/
structure Auction where
  id : Nat
  player_id : Nat
  current_price : Int
  is_active : Bool
  winning_team_id : Option Nat
  auction_event_id : Nat
deriving DecidableEq

/-- The mutable relational state of one database. -/
structure DB where
  teams : List Team
  players : List Player
  auctions : List Auction
deriving DecidableEq

/-- The two exceptions `sell_player` can raise
(src/unnamed/part_001 lines 206 and 212). -/
inductive SellError where
  | alreadySold
  | insufficientPurse
deriving DecidableEq

/-- `SELECT is_sold INTO already_sold FROM players WHERE id = p_id`
(src/unnamed/part_001 line 204): `none` when no row matches. -/
def soldFlag (db : DB) (p_id : Nat) : Option Bool :=
  (db.players.find? (fun r => r.id == p_id)).map (fun r => r.is_sold)

/-- `SELECT purse_remaining INTO current_purse FROM teams WHERE id = t_id`
(src/unnamed/part_001 line 210). -/
def teamPurse (db : DB) (t_id : Nat) : Option Int :=
  (db.teams.find? (fun r => r.id == t_id)).map (fun r => r.purse_remaining)

/-- plpgsql `IF current_purse < sell_price` (src/unnamed/part_001 line 211):
NULL compares to NULL, and the branch is not taken. -/
def purseTooLow (cp : Option Int) (price : Int) : Bool :=
  match cp with
  | some v => decide (v < price)
  | none => false

/-- `UPDATE players SET is_sold = true, team_id = t_id, current_price =
sell_price WHERE id = p_id` applied to one row
(src/unnamed/part_001 lines 216-218). -/
def sellPlayerUpd (p_id t_id : Nat) (price : Int) (r : Player) : Player :=
  if r.id == p_id then
    { r with is_sold := true, team_id := some t_id, current_price := some price }
  else r

/-- `UPDATE teams SET purse_remaining = purse_remaining - sell_price,
players_count = players_count + 1 WHERE id = t_id` applied to one row
(src/unnamed/part_001 lines 221-223). -/
def sellTeamUpd (t_id : Nat) (price : Int) (r : Team) : Team :=
  if r.id == t_id then
    { r with purse_remaining := r.purse_remaining - price,
             players_count := r.players_count + 1 }
  else r

/-- `UPDATE auctions SET is_active = false, winning_team_id = t_id,
current_price = sell_price WHERE id = a_id` applied to one row
(src/unnamed/part_001 lines 226-228). -/
def sellAuctionUpd (a_id t_id : Nat) (price : Int) (r : Auction) : Auction :=
  if r.id == a_id then
    { r with is_active := false, winning_team_id := some t_id,
             current_price := price }
  else r

/-- The three committed updates of `sell_player`
(src/unnamed/part_001 lines 215-228). -/
def sellApply (db : DB) (p_id t_id a_id : Nat) (price : Int) : DB :=
  { teams := db.teams.map (sellTeamUpd t_id price),
    players := db.players.map (sellPlayerUpd p_id t_id price),
    auctions := db.auctions.map (sellAuctionUpd a_id t_id price) }

/-- The stored procedure `sell_player(p_id, t_id, a_id, sell_price)`
(src/unnamed/part_001 lines 188-230): guard on the player's sold flag,
guard on the team's purse, then the three updates, all in one
transaction; an exception rolls everything back. -/
def sell_player (db : DB) (p_id t_id a_id : Nat) (sell_price : Int) :
    Except SellError DB :=
  if soldFlag db p_id = some true then
    .error .alreadySold
  else if purseTooLow (teamPurse db t_id) sell_price = true then
    .error .insufficientPurse
  else
    .ok (sellApply db p_id t_id a_id sell_price)

/-- The state a caller of `sell_player` observes afterwards: the new
state on commit, the unchanged pre-state when the transaction aborts. -/
def applySold (db : DB) (p_id t_id a_id : Nat) (price : Int) : DB :=
  match sell_player db p_id t_id a_id price with
  | .ok db2 => db2
  | .error _ => db

/-- `true` exactly when `sell_player` commits. -/
def sellOk (db : DB) (p_id t_id a_id : Nat) (price : Int) : Bool :=
  match sell_player db p_id t_id a_id price with
  | .ok _ => true
  | .error _ => false

/-- The per-row effect of `UPDATE auctions SET is_active = false WHERE id =
currentAuction.id` (src/src/components/Dashboard/AuctionPanel.tsx
lines 113-116). -/
def deactivateUpd (a_id : Nat) (r : Auction) : Auction :=
  if r.id == a_id then { r with is_active := false } else r

/-- `unsoldPlayer` (src/src/components/Dashboard/AuctionPanel.tsx
lines 109-125): marks the auction row inactive; it touches no other
table and reports no error. -/
def unsoldPlayer (db : DB) (a_id : Nat) : DB :=
  { db with auctions := db.auctions.map (deactivateUpd a_id) }

/-- The per-row effect of the first statement of `resetPurse`: `UPDATE
teams SET purse_remaining = 1000000000, total_purse = 1000000000,
players_count = 0 WHERE id = team.id`
(src/src/components/Dashboard/EditTeamModal.tsx lines 56-63). -/
def resetTeamUpd (t_id : Nat) (r : Team) : Team :=
  if r.id == t_id then
    { r with purse_remaining := 1000000000, total_purse := 1000000000,
             players_count := 0 }
  else r

/-- First statement of `resetPurse`
(src/src/components/Dashboard/EditTeamModal.tsx lines 56-63). -/
def resetTeamRow (db : DB) (t_id : Nat) : DB :=
  { db with teams := db.teams.map (resetTeamUpd t_id) }

/-- The per-row effect of the second statement of `resetPurse`: `UPDATE
players SET is_sold = false, current_price = null, team_id = null WHERE
team_id = team.id` (src/src/components/Dashboard/EditTeamModal.tsx
lines 68-75). -/
def returnPlayerUpd (t_id : Nat) (r : Player) : Player :=
  if r.team_id == some t_id then
    { r with is_sold := false, current_price := none, team_id := none }
  else r

/-- Second statement of `resetPurse`
(src/src/components/Dashboard/EditTeamModal.tsx lines 68-75). -/
def returnTeamPlayers (db : DB) (t_id : Nat) : DB :=
  { db with players := db.players.map (returnPlayerUpd t_id) }

/-- `resetPurse` (src/src/components/Dashboard/EditTeamModal.tsx lines
51-85): the team update followed by the player update, issued as two
separate requests, not one transaction. -/
def resetPurse (db : DB) (t_id : Nat) : DB :=
  returnTeamPlayers (resetTeamRow db t_id) t_id

/-- The two ways `startAuction` can fail: the client-side guard
`if (currentPlayer)` raising the generic toast message, and a thrown
database error — in particular the violation of the `UNIQUE` constraint
on `auctions.player_id` when a row for the player already exists
(src/src/components/Dashboard/AuctionPanel.tsx lines 37-69 and
src/unnamed/part_001 line 91). -/
inductive StartError where
  | auctionInProgress
  | dbUniqueViolation
deriving DecidableEq

/-- `INSERT INTO auctions ...` under the schema's `player_id uuid ...
NOT NULL UNIQUE` constraint (src/unnamed/part_001 lines 89-98): the
insert is rejected whenever any existing row — active or not — carries
the same `player_id`. -/
def insertAuction (db : DB) (row : Auction) : Except StartError DB :=
  if db.auctions.any (fun r => r.player_id == row.player_id) then
    .error .dbUniqueViolation
  else
    .ok { db with auctions := db.auctions ++ [row] }

/-- The row `startAuction` inserts: `player_id: player.id, current_price:
player.base_price, is_active: true, auction_event_id: auctionEventId`;
`winning_team_id` takes its NULL default
(src/src/components/Dashboard/AuctionPanel.tsx lines 44-53). -/
def startRow (p : Player) (eventId newId : Nat) : Auction :=
  { id := newId, player_id := p.id, current_price := p.base_price,
    is_active := true, winning_team_id := none,
    auction_event_id := eventId }

/-- `startAuction(player)` (src/src/components/Dashboard/AuctionPanel.tsx
lines 37-69): aborts with the generic in-progress message when the
client already tracks a current player, otherwise inserts the listing
row; the player's `is_sold` flag is never consulted. -/
def startAuction (clientCurrent : Option Player) (db : DB) (p : Player)
    (eventId newId : Nat) : Except StartError (DB × Auction) :=
  if clientCurrent.isSome then .error .auctionInProgress
  else
    match insertAuction db (startRow p eventId newId) with
    | .error e => .error e
    | .ok db2 => .ok (db2, startRow p eventId newId)

/-- `true` exactly when `startAuction` succeeds. -/
def startOk (clientCurrent : Option Player) (db : DB) (p : Player)
    (eventId newId : Nat) : Bool :=
  match startAuction clientCurrent db p eventId newId with
  | .ok _ => true
  | .error _ => false

/-- A row of the `current_auction` table used by the older dashboard
(src/supabase/migrations/20250930184411_long_sea.sql lines 69-80,
consumed by src/unnamed/part_007). -/
structure CurrentAuction where
  player_id : Option Nat
  current_price : Option Int
  is_active : Bool
deriving DecidableEq

/-- The per-row effect of `update({ current_price: newBid })
.eq('is_active', true)` (src/unnamed/part_007 lines 135-138). -/
def bidUpd (newBid : Int) (r : CurrentAuction) : CurrentAuction :=
  if r.is_active then { r with current_price := some newBid } else r

/-- `updateBid(amount)` (src/unnamed/part_007 lines 130-142): computes
`newBid = Math.max(currentBid + amount, basePrice || 0)` from the
client's local bid and unconditionally overwrites the stored
`current_price` of every active row with it; there is no error path and
no re-validation against the stored value.  Returns the new store
together with the client's new local bid. -/
def updateBid (rows : List CurrentAuction) (currentBid : Int)
    (basePrice : Option Int) (amount : Int) : List CurrentAuction × Int :=
  let newBid := max (currentBid + amount) (basePrice.getD 0)
  (rows.map (bidUpd newBid), newBid)

/-- `updateBid(amount)` of the newer panel
(src/src/components/Dashboard/AuctionPanel.tsx lines 71-75): purely
client-local — when no current player is tracked it does nothing,
otherwise the local bid becomes `max(currentBid + amount, base_price)`;
no store is read or written and no error is reported. -/
def updateBidPanel (currentPlayer : Option Player) (currentBid : Int)
    (amount : Int) : Int :=
  match currentPlayer with
  | none => currentBid
  | some p => max (currentBid + amount) p.base_price

/-- The admin operations that mutate the shared store, used to talk
about sequences of calls. -/
inductive Op where
  | sellOp (p_id t_id a_id : Nat) (price : Int)
  | unsoldOp (a_id : Nat)
  | resetOp (t_id : Nat)
deriving DecidableEq

/-- Whether an operation is the admin purse reset. -/
def Op.isReset : Op → Bool
  | .resetOp _ => true
  | _ => false

/-- The state transition of one operation. -/
def step (db : DB) : Op → DB
  | .sellOp p t a price => applySold db p t a price
  | .unsoldOp a => unsoldPlayer db a
  | .resetOp t => resetPurse db t

/-- How many `sell_player` calls for player `pid` commit along a
sequence of operations executed from `db`. -/
def sellCount (pid : Nat) : DB → List Op → Nat
  | _, [] => 0
  | db, o :: rest =>
    (match o with
     | .sellOp p t a price =>
        if p == pid && sellOk db p t a price then 1 else 0
     | _ => 0) + sellCount pid (step db o) rest

/-- The invariant enforced by the `UNIQUE` constraint on
`auctions.player_id` (src/unnamed/part_001 line 91). -/
def auctionsUnique (db : DB) : Prop :=
  db.auctions.Pairwise (fun x y => x.player_id ≠ y.player_id)

/-! Concrete rows and databases used by witnesses and counterexamples. -/

/-- A team of event 1 with the default full purse. -/
def exTeam : Team :=
  { id := 20, auction_event_id := 1, purse_remaining := 1000000000,
    total_purse := 1000000000, players_count := 0 }

/-- A team belonging to a different auction event (event 2). -/
def exTeamOtherEvent : Team :=
  { id := 21, auction_event_id := 2, purse_remaining := 800000000,
    total_purse := 1000000000, players_count := 0 }

/-- A team of event 1 whose purse is below the spec scenario's price. -/
def exTeamPoor : Team :=
  { id := 22, auction_event_id := 1, purse_remaining := 800000,
    total_purse := 1000000000, players_count := 3 }

/-- An unsold player of event 1. -/
def exPlayer : Player :=
  { id := 10, auction_event_id := 1, base_price := 2000000,
    current_price := none, team_id := none, is_sold := false }

/-- A player of event 1 already sold to team 20. -/
def exPlayerSold : Player :=
  { id := 11, auction_event_id := 1, base_price := 2000000,
    current_price := some 7000000, team_id := some 20, is_sold := true }

/-- The active listing for `exPlayer`. -/
def exAuction : Auction :=
  { id := 30, player_id := 10, current_price := 2000000,
    is_active := true, winning_team_id := none, auction_event_id := 1 }

/-- A closed (inactive) listing for `exPlayer` whose stored bid is
5000000. -/
def exAuctionClosed : Auction :=
  { id := 30, player_id := 10, current_price := 5000000,
    is_active := false, winning_team_id := none, auction_event_id := 1 }

/-- A database in the state the settlement scenarios start from. -/
def exDb : DB :=
  { teams := [exTeam, exTeamOtherEvent, exTeamPoor],
    players := [exPlayer, exPlayerSold],
    auctions := [exAuction] }

/-- A database whose only listing is inactive with a stored bid of
5000000. -/
def exDbClosed : DB :=
  { teams := [exTeam, exTeamOtherEvent, exTeamPoor],
    players := [exPlayer],
    auctions := [exAuctionClosed] }

/-- A database with a sold player and no listing row at all. -/
def exDbSoldNoListing : DB :=
  { teams := [exTeam], players := [exPlayerSold], auctions := [] }

/-- The live `current_auction` store with a stored bid of 10000000. -/
def exRows : List CurrentAuction :=
  [{ player_id := some 10, current_price := some 10000000,
     is_active := true }]

/-! General helper lemmas about row updates. -/

/-- `find?` by a key commutes with a row update that preserves the key. -/
theorem find_map_key {α : Type} (key : α → Nat) (f : α → α)
    (hf : ∀ r, key (f r) = key r) (x : Nat) (l : List α) :
    (l.map f).find? (fun r => key r == x) =
      (l.find? (fun r => key r == x)).map f := by
  have hpred : ((fun r => key r == x) ∘ f) = (fun r => key r == x) := by
    funext r
    simp [Function.comp, hf]
  rw [List.find?_map, hpred]

/-- A row a rewrite leaves untouched is still a member of the rewritten
table. -/
theorem mem_map_self {α : Type} {f : α → α} {l : List α} {r : α}
    (hr : r ∈ l) (h : f r = r) : r ∈ l.map f := by
  have h2 := List.mem_map_of_mem f hr
  rwa [h] at h2

theorem sellPlayerUpd_id (p t : Nat) (price : Int) (r : Player) :
    (sellPlayerUpd p t price r).id = r.id := by
  unfold sellPlayerUpd
  split <;> rfl

theorem sellTeamUpd_id (t : Nat) (price : Int) (r : Team) :
    (sellTeamUpd t price r).id = r.id := by
  unfold sellTeamUpd
  split <;> rfl

theorem sellAuctionUpd_id (a t : Nat) (price : Int) (r : Auction) :
    (sellAuctionUpd a t price r).id = r.id := by
  unfold sellAuctionUpd
  split <;> rfl

theorem sellAuctionUpd_player_id (a t : Nat) (price : Int) (r : Auction) :
    (sellAuctionUpd a t price r).player_id = r.player_id := by
  unfold sellAuctionUpd
  split <;> rfl

theorem deactivateUpd_id (a : Nat) (r : Auction) :
    (deactivateUpd a r).id = r.id := by
  unfold deactivateUpd
  split <;> rfl

theorem deactivateUpd_player_id (a : Nat) (r : Auction) :
    (deactivateUpd a r).player_id = r.player_id := by
  unfold deactivateUpd
  split <;> rfl

theorem resetTeamUpd_id (t : Nat) (r : Team) :
    (resetTeamUpd t r).id = r.id := by
  unfold resetTeamUpd
  split <;> rfl

theorem returnPlayerUpd_id (t : Nat) (r : Player) :
    (returnPlayerUpd t r).id = r.id := by
  unfold returnPlayerUpd
  split <;> rfl

/-- When both guards pass, `sell_player` commits its three updates. -/
theorem sell_player_commits (db : DB) (p t a : Nat) (price : Int)
    (h1 : ¬ soldFlag db p = some true)
    (h2 : purseTooLow (teamPurse db t) price = false) :
    sell_player db p t a price = .ok (sellApply db p t a price) := by
  simp [sell_player, h1, h2]

/-- A committed `sell_player` call had both guards pass, and the new
state is exactly the three updates. -/
theorem sell_player_ok_elim {db db2 : DB} {p t a : Nat} {price : Int}
    (h : sell_player db p t a price = .ok db2) :
    ¬ soldFlag db p = some true ∧
      purseTooLow (teamPurse db t) price = false ∧
      db2 = sellApply db p t a price := by
  by_cases h1 : soldFlag db p = some true
  · simp [sell_player, h1] at h
  · by_cases h2 : purseTooLow (teamPurse db t) price = true
    · simp [sell_player, h1, h2] at h
    · refine ⟨h1, by simpa using h2, ?_⟩
      have h3 := sell_player_commits db p t a price h1 (by simpa using h2)
      rw [h3] at h
      exact (Except.ok.inj h).symm

/-- Every operation rewrites the players table row-by-row with an
id-preserving function. -/
theorem step_players_shape (db : DB) (o : Op) :
    ∃ f : Player → Player, (∀ r, (f r).id = r.id) ∧
      (step db o).players = db.players.map f := by
  cases o with
  | sellOp p t a price =>
    cases hsp : sell_player db p t a price with
    | ok db2 =>
      obtain ⟨-, -, hdb⟩ := sell_player_ok_elim hsp
      refine ⟨sellPlayerUpd p t price, sellPlayerUpd_id p t price, ?_⟩
      simp [step, applySold, hsp, hdb, sellApply]
    | error e =>
      refine ⟨id, fun r => rfl, ?_⟩
      simp [step, applySold, hsp]
  | unsoldOp a =>
    refine ⟨id, fun r => rfl, ?_⟩
    simp [step, unsoldPlayer]
  | resetOp t =>
    exact ⟨returnPlayerUpd t, returnPlayerUpd_id t, rfl⟩

/-- A player row that exists keeps existing across any operation. -/
theorem find_player_step (db : DB) (o : Op) (pid : Nat) (pl : Player)
    (hp : db.players.find? (fun r => r.id == pid) = some pl) :
    ∃ pl2, (step db o).players.find? (fun r => r.id == pid) = some pl2 := by
  obtain ⟨f, hf, hshape⟩ := step_players_shape db o
  rw [hshape, find_map_key Player.id f hf pid, hp]
  exact ⟨f pl, rfl⟩

/-- A sold player stays sold across any operation that is not the admin
purse reset. -/
theorem sold_preserved (db : DB) (o : Op) (pid : Nat) (pl : Player)
    (hp : db.players.find? (fun r => r.id == pid) = some pl)
    (hs : pl.is_sold = true) (ho : o.isReset = false) :
    ∃ pl2, (step db o).players.find? (fun r => r.id == pid) = some pl2 ∧
      pl2.is_sold = true := by
  cases o with
  | sellOp p t a price =>
    by_cases hpp : p = pid
    · subst hpp
      have hsold : soldFlag db p = some true := by simp [soldFlag, hp, hs]
      have herr : sell_player db p t a price = .error .alreadySold := by
        simp [sell_player, hsold]
      refine ⟨pl, ?_, hs⟩
      simp [step, applySold, herr, hp]
    · have hfs := List.find?_some hp
      have hplid : pl.id = pid := by simpa using hfs
      have hne : (pl.id == p) = false := by
        simp [hplid]
        omega
      cases hsp : sell_player db p t a price with
      | ok db2 =>
        obtain ⟨-, -, hdb⟩ := sell_player_ok_elim hsp
        refine ⟨pl, ?_, hs⟩
        simp only [step, applySold, hsp, hdb, sellApply]
        rw [find_map_key Player.id _ (sellPlayerUpd_id p t price) pid, hp]
        simp [sellPlayerUpd, hne]
      | error e =>
        refine ⟨pl, ?_, hs⟩
        simp [step, applySold, hsp, hp]
  | unsoldOp a =>
    refine ⟨pl, ?_, hs⟩
    simp [step, unsoldPlayer, hp]
  | resetOp t =>
    simp [Op.isReset] at ho

/-- After a committed sale of player `pid`, that player's row is sold. -/
theorem sold_after_sell (db : DB) (pid t a : Nat) (price : Int)
    (pl : Player)
    (hp : db.players.find? (fun r => r.id == pid) = some pl)
    (hok : sellOk db pid t a price = true) :
    ∃ pl2,
      (step db (.sellOp pid t a price)).players.find?
        (fun r => r.id == pid) = some pl2 ∧ pl2.is_sold = true := by
  cases hsp : sell_player db pid t a price with
  | error e => simp [sellOk, hsp] at hok
  | ok db2 =>
    obtain ⟨-, -, hdb⟩ := sell_player_ok_elim hsp
    have hfs := List.find?_some hp
    have hplid : (pl.id == pid) = true := by simpa using hfs
    refine ⟨sellPlayerUpd pid t price pl, ?_, ?_⟩
    · simp only [step, applySold, hsp, hdb, sellApply]
      rw [find_map_key Player.id _ (sellPlayerUpd_id pid t price) pid, hp]
      rfl
    · simp [sellPlayerUpd, hplid]

/-- Once a player row is sold, no reset-free sequence commits another
sale of that player. -/
theorem sellCount_zero_of_sold (pid : Nat) :
    ∀ (ops : List Op) (db : DB) (pl : Player),
      db.players.find? (fun r => r.id == pid) = some pl →
      pl.is_sold = true →
      (ops.all fun o => !o.isReset) = true →
      sellCount pid db ops = 0
  | [], _, _, _, _, _ => rfl
  | o :: rest, db, pl, hp, hs, hall => by
    rw [List.all_cons] at hall
    obtain ⟨h1, h2⟩ := Bool.and_eq_true_iff.mp hall
    have ho : o.isReset = false := by simpa using h1
    obtain ⟨pl2, hp2, hs2⟩ := sold_preserved db o pid pl hp hs ho
    have ih := sellCount_zero_of_sold pid rest (step db o) pl2 hp2 hs2 h2
    cases o with
    | sellOp p t a price =>
      by_cases hpp : (p == pid) = true
      · have hpe : p = pid := by simpa using hpp
        subst hpe
        have hsold : soldFlag db p = some true := by simp [soldFlag, hp, hs]
        have hko : sellOk db p t a price = false := by
          simp [sellOk, sell_player, hsold]
        simp [sellCount, hko, ih]
      · have hpf : (p == pid) = false := by simpa using hpp
        simp [sellCount, hpf, ih]
    | unsoldOp a => simp [sellCount, ih]
    | resetOp t => simp [Op.isReset] at ho

/-- For an existing player row, a reset-free sequence commits at most
one sale of that player. -/
theorem sellCount_le_one (pid : Nat) :
    ∀ (ops : List Op) (db : DB) (pl : Player),
      db.players.find? (fun r => r.id == pid) = some pl →
      (ops.all fun o => !o.isReset) = true →
      sellCount pid db ops ≤ 1
  | [], _, _, _, _ => by simp [sellCount]
  | o :: rest, db, pl, hp, hall => by
    rw [List.all_cons] at hall
    obtain ⟨h1, h2⟩ := Bool.and_eq_true_iff.mp hall
    have ho : o.isReset = false := by simpa using h1
    cases o with
    | sellOp p t a price =>
      by_cases hok : (p == pid && sellOk db p t a price) = true
      · obtain ⟨hpp, hso⟩ := Bool.and_eq_true_iff.mp hok
        have hpe : p = pid := by simpa using hpp
        subst hpe
        obtain ⟨pl2, hp2, hs2⟩ := sold_after_sell db p t a price pl hp hso
        have hz := sellCount_zero_of_sold p rest
          (step db (.sellOp p t a price)) pl2 hp2 hs2 h2
        simp [sellCount, hso, hz]
      · obtain ⟨pl2, hp2⟩ := find_player_step db (.sellOp p t a price) pid pl hp
        have ih := sellCount_le_one pid rest (step db (.sellOp p t a price))
          pl2 hp2 h2
        have hokf : (p == pid && sellOk db p t a price) = false := by
          simpa using hok
        simpa [sellCount, hokf] using ih
    | unsoldOp a =>
      obtain ⟨pl2, hp2⟩ := find_player_step db (.unsoldOp a) pid pl hp
      have ih := sellCount_le_one pid rest (step db (.unsoldOp a)) pl2 hp2 h2
      simpa [sellCount] using ih
    | resetOp t => simp [Op.isReset] at ho

/-! Claim theorems. -/

/-- C1: every committed `sell_player` call leaves the player sold, owned
by the winning team at the final price; the team's purse reduced by
exactly the final price and its player count incremented; the listing
inactive with its winner and final bid recorded; and every other row of
the three tables unchanged. -/
theorem sell_player_commit_post (db : DB) (p t a : Nat) (price : Int)
    (pl : Player) (tm : Team) (au : Auction)
    (hp : db.players.find? (fun r => r.id == p) = some pl)
    (hps : pl.is_sold = false)
    (ht : db.teams.find? (fun r => r.id == t) = some tm)
    (hpur : ¬ tm.purse_remaining < price)
    (ha : db.auctions.find? (fun r => r.id == a) = some au) :
    ∃ db2, sell_player db p t a price = Except.ok db2 ∧
      db2.players.find? (fun r => r.id == p) =
        some { pl with is_sold := true, team_id := some t,
                       current_price := some price } ∧
      db2.teams.find? (fun r => r.id == t) =
        some { tm with purse_remaining := tm.purse_remaining - price,
                       players_count := tm.players_count + 1 } ∧
      db2.auctions.find? (fun r => r.id == a) =
        some { au with is_active := false, winning_team_id := some t,
                       current_price := price } ∧
      (∀ r ∈ db.players, (r.id == p) = false → r ∈ db2.players) ∧
      (∀ r ∈ db.teams, (r.id == t) = false → r ∈ db2.teams) ∧
      (∀ r ∈ db.auctions, (r.id == a) = false → r ∈ db2.auctions) := by
  have hpid : (pl.id == p) = true := by
    have hfs := List.find?_some hp
    simpa using hfs
  have htid : (tm.id == t) = true := by
    have hfs := List.find?_some ht
    simpa using hfs
  have haid : (au.id == a) = true := by
    have hfs := List.find?_some ha
    simpa using hfs
  have h1 : ¬ soldFlag db p = some true := by simp [soldFlag, hp, hps]
  have h2 : purseTooLow (teamPurse db t) price = false := by
    simp [purseTooLow, teamPurse, ht, hpur]
  refine ⟨sellApply db p t a price,
    sell_player_commits db p t a price h1 h2, ?_, ?_, ?_, ?_, ?_, ?_⟩
  · show (db.players.map (sellPlayerUpd p t price)).find?
      (fun r => r.id == p) = _
    rw [find_map_key Player.id _ (sellPlayerUpd_id p t price) p, hp]
    simp [sellPlayerUpd, hpid]
  · show (db.teams.map (sellTeamUpd t price)).find?
      (fun r => r.id == t) = _
    rw [find_map_key Team.id _ (sellTeamUpd_id t price) t, ht]
    simp [sellTeamUpd, htid]
  · show (db.auctions.map (sellAuctionUpd a t price)).find?
      (fun r => r.id == a) = _
    rw [find_map_key Auction.id _ (sellAuctionUpd_id a t price) a, ha]
    simp [sellAuctionUpd, haid]
  · intro r hr hne
    exact mem_map_self hr (by simp [sellPlayerUpd, hne])
  · intro r hr hne
    exact mem_map_self hr (by simp [sellTeamUpd, hne])
  · intro r hr hne
    exact mem_map_self hr (by simp [sellAuctionUpd, hne])

/-- C1 witness: the theorem applied to the concrete database `exDb`:
team 20 buys player 10 at 5000000. -/
theorem sell_player_commit_post_witness :
    ∃ db2, sell_player exDb 10 20 30 5000000 = Except.ok db2 ∧
      db2.players.find? (fun r => r.id == 10) =
        some { exPlayer with is_sold := true, team_id := some 20,
                             current_price := some 5000000 } ∧
      db2.teams.find? (fun r => r.id == 20) =
        some { exTeam with
                 purse_remaining := exTeam.purse_remaining - 5000000,
                 players_count := exTeam.players_count + 1 } ∧
      db2.auctions.find? (fun r => r.id == 30) =
        some { exAuction with is_active := false,
                              winning_team_id := some 20,
                              current_price := 5000000 } ∧
      (∀ r ∈ exDb.players, (r.id == 10) = false → r ∈ db2.players) ∧
      (∀ r ∈ exDb.teams, (r.id == 20) = false → r ∈ db2.teams) ∧
      (∀ r ∈ exDb.auctions, (r.id == 30) = false → r ∈ db2.auctions) :=
  sell_player_commit_post exDb 10 20 30 5000000 exPlayer exTeam exAuction
    (by decide) (by decide) (by decide) (by decide) (by decide)

/-- C2 counterexample: over a sequence of operations that includes the
admin purse reset, two `sell_player` calls for player 10 both commit,
so "at most one settleSold ever succeeds over any sequence of
operations" is false on the code. -/
theorem sell_exclusivity_cx :
    sellCount 10 exDb
      [Op.sellOp 10 20 30 5000000, Op.resetOp 20,
       Op.sellOp 10 20 30 5000000] = 2 := by decide

/-- C2 amended: a settleSold on an already-sold player fails with the
AlreadySold error and the observable state is unchanged; consequently,
for every player row present in the database, at most one settleSold
commits over any sequence of settlement operations containing no admin
purse reset (the reset returns players to the pool and re-enables a
sale). -/
theorem sell_exclusivity (db : DB) (p t a : Nat) (price : Int)
    (pl : Player)
    (hp : db.players.find? (fun r => r.id == p) = some pl) :
    (pl.is_sold = true →
      sell_player db p t a price = Except.error SellError.alreadySold ∧
      applySold db p t a price = db) ∧
    (∀ ops : List Op, (ops.all fun o => !o.isReset) = true →
      sellCount p db ops ≤ 1) := by
  constructor
  · intro hs
    have hsold : soldFlag db p = some true := by simp [soldFlag, hp, hs]
    have herr : sell_player db p t a price =
        Except.error SellError.alreadySold := by
      simp [sell_player, hsold]
    exact ⟨herr, by simp [applySold, herr]⟩
  · intro ops hall
    exact sellCount_le_one p ops db pl hp hall

/-- C2 witness: the theorem applied to the already-sold player 11 and a
concrete reset-free sequence. -/
theorem sell_exclusivity_witness :
    sell_player exDb 11 20 30 5000000 =
      Except.error SellError.alreadySold ∧
    sellCount 11 exDb [Op.sellOp 11 20 30 5000000, Op.unsoldOp 30] ≤ 1 :=
  ⟨((sell_exclusivity exDb 11 20 30 5000000 exPlayerSold
      (by decide)).1 (by decide)).1,
   (sell_exclusivity exDb 11 20 30 5000000 exPlayerSold (by decide)).2
     [Op.sellOp 11 20 30 5000000, Op.unsoldOp 30] (by decide)⟩

/-- C3: when the player is not yet sold and the winning team's purse is
below the final price, `sell_player` aborts with InsufficientPurse and
the observable state is exactly the pre-state; and no call ever commits
with a final price exceeding the purse read at lock time. -/
theorem sell_player_insufficient (db : DB) (p t a : Nat) (price : Int)
    (pl : Player) (tm : Team)
    (hp : db.players.find? (fun r => r.id == p) = some pl)
    (hps : pl.is_sold = false)
    (ht : db.teams.find? (fun r => r.id == t) = some tm)
    (hlow : tm.purse_remaining < price) :
    sell_player db p t a price =
      Except.error SellError.insufficientPurse ∧
    applySold db p t a price = db ∧
    (∀ (db0 db2 : DB) (p0 t0 a0 : Nat) (price0 : Int) (tm0 : Team),
      sell_player db0 p0 t0 a0 price0 = Except.ok db2 →
      db0.teams.find? (fun r => r.id == t0) = some tm0 →
      ¬ tm0.purse_remaining < price0) := by
  have h1 : ¬ soldFlag db p = some true := by simp [soldFlag, hp, hps]
  have h2 : purseTooLow (teamPurse db t) price = true := by
    simp [purseTooLow, teamPurse, ht, hlow]
  have herr : sell_player db p t a price =
      Except.error SellError.insufficientPurse := by
    simp [sell_player, h1, h2]
  refine ⟨herr, by simp [applySold, herr], ?_⟩
  intro db0 db2 p0 t0 a0 price0 tm0 hok hfind hlt
  obtain ⟨-, hguard, -⟩ := sell_player_ok_elim hok
  have hg2 : purseTooLow (teamPurse db0 t0) price0 = true := by
    simp [purseTooLow, teamPurse, hfind, hlt]
  rw [hguard] at hg2
  simp at hg2

/-- C3 witness: the spec scenario — final price 900000 against team 22
whose purse_remaining is 800000. -/
theorem sell_player_insufficient_witness :
    sell_player exDb 10 22 30 900000 =
      Except.error SellError.insufficientPurse ∧
    applySold exDb 10 22 30 900000 = exDb :=
  ⟨(sell_player_insufficient exDb 10 22 30 900000 exPlayer exTeamPoor
      (by decide) (by decide) (by decide) (by decide)).1,
   (sell_player_insufficient exDb 10 22 30 900000 exPlayer exTeamPoor
      (by decide) (by decide) (by decide) (by decide)).2.1⟩

/-- C4 counterexample: in `exDbClosed` the listing 30 is inactive and
the final price 100 is far below its stored bid 5000000, yet
`sell_player` commits instead of failing with ListingNotActive or
PriceBelowBid. -/
theorem sell_listing_checks_cx :
    ((exDbClosed.auctions.find? (fun r => r.id == 30)).map
      (fun r => r.is_active)) = some false ∧
    ((exDbClosed.auctions.find? (fun r => r.id == 30)).map
      (fun r => r.current_price)) = some 5000000 ∧
    (100 : Int) < 5000000 ∧
    sellOk exDbClosed 10 20 30 100 = true := by decide

/-- C4 amended: `sell_player` validates only the player's sold flag and
the team's purse; it reads no field of the listing, so a call whose
listing is inactive, or whose final price is below the stored bid,
still commits whenever those two guards pass; its only failure kinds
are the two distinct errors AlreadySold and InsufficientPurse. -/
theorem sell_player_no_listing_check (db : DB) (p t a : Nat)
    (price : Int) (pl : Player) (tm : Team)
    (hp : db.players.find? (fun r => r.id == p) = some pl)
    (hps : pl.is_sold = false)
    (ht : db.teams.find? (fun r => r.id == t) = some tm)
    (hpur : ¬ tm.purse_remaining < price) :
    sell_player db p t a price =
      Except.ok (sellApply db p t a price) ∧
    SellError.alreadySold ≠ SellError.insufficientPurse := by
  have h1 : ¬ soldFlag db p = some true := by simp [soldFlag, hp, hps]
  have h2 : purseTooLow (teamPurse db t) price = false := by
    simp [purseTooLow, teamPurse, ht, hpur]
  exact ⟨sell_player_commits db p t a price h1 h2, by simp⟩

/-- C4 witness: the theorem applied to `exDbClosed`, whose only listing
is inactive with a stored bid above the price. -/
theorem sell_player_no_listing_check_witness :
    sell_player exDbClosed 10 20 30 100 =
      Except.ok (sellApply exDbClosed 10 20 30 100) ∧
    SellError.alreadySold ≠ SellError.insufficientPurse :=
  sell_player_no_listing_check exDbClosed 10 20 30 100 exPlayer exTeam
    (by decide) (by decide) (by decide) (by decide)

/-- C5 counterexample: with the stored bid 10000000 and a stale client
bid 1000000, `updateBid` overwrites the store with 1500000 — the stored
bid decreases, so the claimed compare-and-set monotone raiseBid with
ListingNotActive and BidNotIncreasing failures is not what the code
does. -/
theorem updateBid_cx :
    (exRows.map fun r => r.current_price) = [some 10000000] ∧
    ((updateBid exRows 1000000 (some 500000) 500000).1.map
      fun r => r.current_price) = [some 1500000] ∧
    (1500000 : Int) < 10000000 := by decide

/-- C5 amended: `updateBid` has no failure path: rows that are not
active are left exactly as they are (no ListingNotActive error), the
stored bid of every active row is unconditionally overwritten with
max(clientBid + amount, basePrice) whatever the stored value was (an
overwrite, not a compare-and-set, and no BidNotIncreasing error), so a
stale client bid can decrease the stored bid; when the client bid is at
least the stored value and the increment is nonnegative the stored bid
does not decrease, and the panel's purely client-local updateBid never
drops below the base price. -/
theorem updateBid_overwrite (rows : List CurrentAuction) (cb : Int)
    (bp : Option Int) (amt : Int) :
    (∀ r ∈ rows, r.is_active = false →
      r ∈ (updateBid rows cb bp amt).1) ∧
    (∀ r2 ∈ (updateBid rows cb bp amt).1, r2.is_active = true →
      r2.current_price = some (max (cb + amt) (bp.getD 0))) ∧
    (∀ r ∈ rows, ∀ v : Int, r.is_active = true →
      r.current_price = some v → v ≤ cb → 0 ≤ amt →
      v ≤ (updateBid rows cb bp amt).2) ∧
    (∀ (q : Player) (c d : Int),
      q.base_price ≤ updateBidPanel (some q) c d) := by
  refine ⟨?_, ?_, ?_, ?_⟩
  · intro r hr hinact
    exact mem_map_self hr (by simp [bidUpd, hinact])
  · intro r2 hr2 hact
    simp only [updateBid] at hr2
    obtain ⟨r, hr, hrew⟩ := List.mem_map.mp hr2
    cases hra : r.is_active with
    | false =>
      rw [← hrew] at hact
      simp [bidUpd, hra] at hact
    | true =>
      rw [← hrew]
      simp [updateBid, bidUpd, hra]
  · intro r hr v hact hpv hvc hamt
    have h1 : (updateBid rows cb bp amt).2 = max (cb + amt) (bp.getD 0) :=
      rfl
    rw [h1]
    have h2 : v ≤ cb + amt := by omega
    exact le_trans h2 (le_max_left _ _)
  · intro q c d
    exact le_max_right _ _

/-- C5 witness: with the client bid in sync with the store and the +5L
increment, the stored bid does not decrease. -/
theorem updateBid_overwrite_witness :
    (10000000 : Int) ≤ (updateBid exRows 10000000 (some 500000) 500000).2 :=
  (updateBid_overwrite exRows 10000000 (some 500000) 500000).2.2.1
    { player_id := some 10, current_price := some 10000000,
      is_active := true }
    (by decide) 10000000 (by decide) (by decide) (by decide) (by decide)

/-- C6 counterexample: player 11 has its sold flag set, no client-side
auction is tracked and no listing row exists, yet `startAuction`
succeeds — there is no PlayerAlreadySold check anywhere. -/
theorem startAuction_cx :
    exPlayerSold.is_sold = true ∧
    startOk none exDbSoldNoListing exPlayerSold 1 99 = true := by decide

/-- C6 amended: `startAuction` fails only through the client in-progress
guard (a generic error raised whenever the client tracks a current
player) or through the database uniqueness violation on
auctions.player_id (a generic error raised whenever any listing row for
the player exists, active or not); the player's sold flag is never
checked; on success exactly one listing row is appended, carrying bid =
the player's base price, active = true and winner = null. -/
theorem startAuction_characterization (db : DB) (p : Player)
    (e n : Nat) :
    (∀ cur : Option Player, cur.isSome = true →
      startAuction cur db p e n =
        Except.error StartError.auctionInProgress) ∧
    ((db.auctions.any fun r => r.player_id == p.id) = true →
      startAuction none db p e n =
        Except.error StartError.dbUniqueViolation) ∧
    ((db.auctions.any fun r => r.player_id == p.id) = false →
      startAuction none db p e n =
        Except.ok ({ db with auctions := db.auctions ++ [startRow p e n] },
                   startRow p e n) ∧
      (startRow p e n).current_price = p.base_price ∧
      (startRow p e n).is_active = true ∧
      (startRow p e n).winning_team_id = none) := by
  refine ⟨?_, ?_, ?_⟩
  · intro cur hcur
    simp [startAuction, hcur]
  · intro hany
    have h2 : (db.auctions.any
        fun r => r.player_id == (startRow p e n).player_id) = true := by
      simpa [startRow] using hany
    simp [startAuction, insertAuction, h2]
  · intro hnone
    refine ⟨?_, rfl, rfl, rfl⟩
    have h2 : (db.auctions.any
        fun r => r.player_id == (startRow p e n).player_id) = false := by
      simpa [startRow] using hnone
    simp [startAuction, insertAuction, h2]

/-- C6 witness: both failure modes of the theorem at concrete inputs —
a tracked client player, and an existing listing row for player 10. -/
theorem startAuction_characterization_witness :
    startAuction (some exPlayer) exDb exPlayer 1 99 =
      Except.error StartError.auctionInProgress ∧
    startAuction none exDb exPlayer 1 99 =
      Except.error StartError.dbUniqueViolation :=
  ⟨(startAuction_characterization exDb exPlayer 1 99).1
      (some exPlayer) (by decide),
   (startAuction_characterization exDb exPlayer 1 99).2.1 (by decide)⟩

/-- Deactivating a listing row twice equals deactivating it once. -/
theorem deactivateUpd_idem (a : Nat) (r : Auction) :
    deactivateUpd a (deactivateUpd a r) = deactivateUpd a r := by
  by_cases h : (r.id == a) = true
  · simp [deactivateUpd, h]
  · have h2 : (r.id == a) = false := by simpa using h
    simp [deactivateUpd, h2]

/-- C7: `unsoldPlayer` changes no Player or Team row, deactivates the
matching listing while leaving every other listing untouched, and is
idempotent — a second call against the now-inactive listing is a
successful no-op rather than an error. -/
theorem unsoldPlayer_frame_idem (db : DB) (a : Nat) :
    (unsoldPlayer db a).players = db.players ∧
    (unsoldPlayer db a).teams = db.teams ∧
    (∀ r2 ∈ (unsoldPlayer db a).auctions, (r2.id == a) = true →
      r2.is_active = false) ∧
    (∀ r ∈ db.auctions, (r.id == a) = false →
      r ∈ (unsoldPlayer db a).auctions) ∧
    unsoldPlayer (unsoldPlayer db a) a = unsoldPlayer db a := by
  refine ⟨rfl, rfl, ?_, ?_, ?_⟩
  · intro r2 hr2 hid
    obtain ⟨r, hr, hrew⟩ := List.mem_map.mp hr2
    rw [← hrew] at hid
    rw [deactivateUpd_id] at hid
    rw [← hrew]
    simp [deactivateUpd, hid]
  · intro r hr hne
    exact mem_map_self hr (by simp [deactivateUpd, hne])
  · unfold unsoldPlayer
    simp only [List.map_map]
    rw [show (deactivateUpd a ∘ deactivateUpd a) = deactivateUpd a from
      funext (deactivateUpd_idem a)]

/-- C7 witness: the frame equalities and idempotence at the concrete
database, plus the deactivated concrete row. -/
theorem unsoldPlayer_frame_idem_witness :
    (unsoldPlayer exDb 30).players = exDb.players ∧
    (unsoldPlayer exDb 30).teams = exDb.teams ∧
    (deactivateUpd 30 exAuction).is_active = false ∧
    unsoldPlayer (unsoldPlayer exDb 30) 30 = unsoldPlayer exDb 30 :=
  ⟨(unsoldPlayer_frame_idem exDb 30).1,
   (unsoldPlayer_frame_idem exDb 30).2.1,
   (unsoldPlayer_frame_idem exDb 30).2.2.1 (deactivateUpd 30 exAuction)
     (by decide) (by decide),
   (unsoldPlayer_frame_idem exDb 30).2.2.2.2⟩

/-- C8 counterexample: player 10 and listing 30 belong to auction event
1 while team 21 belongs to event 2, yet `sell_player` commits and
deducts the price from the other event's team — no CrossTenantReference
failure exists. -/
theorem tenant_isolation_cx :
    exPlayer.auction_event_id = 1 ∧
    exAuction.auction_event_id = 1 ∧
    exTeamOtherEvent.auction_event_id = 2 ∧
    sellOk exDb 10 21 30 5000000 = true ∧
    ((applySold exDb 10 21 30 5000000).teams.find?
      (fun r => r.id == 21)).map (fun r => r.purse_remaining) =
      some 795000000 := by decide

/-- C8 amended: `sell_player` performs no auction-event check — with an
unsold player and a sufficiently funded team it commits even when the
team belongs to a different auction event than the player, mutating
rows of both events; the only event scoping in the source is the
row-level-security policy on direct table access, which the
SECURITY DEFINER procedure bypasses. -/
theorem sell_player_cross_event (db : DB) (p t a : Nat) (price : Int)
    (pl : Player) (tm : Team)
    (hp : db.players.find? (fun r => r.id == p) = some pl)
    (hps : pl.is_sold = false)
    (ht : db.teams.find? (fun r => r.id == t) = some tm)
    (hpur : ¬ tm.purse_remaining < price)
    (hev : pl.auction_event_id ≠ tm.auction_event_id) :
    sell_player db p t a price =
      Except.ok (sellApply db p t a price) := by
  have h1 : ¬ soldFlag db p = some true := by simp [soldFlag, hp, hps]
  have h2 : purseTooLow (teamPurse db t) price = false := by
    simp [purseTooLow, teamPurse, ht, hpur]
  exact sell_player_commits db p t a price h1 h2

/-- C8 witness: the cross-event sale of player 10 (event 1) to team 21
(event 2) commits. -/
theorem sell_player_cross_event_witness :
    sell_player exDb 10 21 30 5000000 =
      Except.ok (sellApply exDb 10 21 30 5000000) :=
  sell_player_cross_event exDb 10 21 30 5000000 exPlayer exTeamOtherEvent
    (by decide) (by decide) (by decide) (by decide) (by decide)

/-- C9: `resetPurse` unconditionally overwrites the team row with
purse_remaining = total_purse = 1000000000 and players_count = 0 —
discarding any customized total purse — and then, in a second separate
update, returns every player owned by the team to the unsold state;
after the first update alone the intermediate state already shows the
reset team while the players table is still untouched, so the two
updates are not one atomic transaction. -/
theorem resetPurse_spec (db : DB) (t : Nat) :
    (∀ r2 ∈ (resetPurse db t).teams, (r2.id == t) = true →
      r2.purse_remaining = 1000000000 ∧ r2.total_purse = 1000000000 ∧
      r2.players_count = 0) ∧
    (∀ r ∈ db.players, (r.team_id == some t) = true →
      { r with is_sold := false, current_price := none,
               team_id := none } ∈ (resetPurse db t).players) ∧
    (∀ r ∈ db.players, (r.team_id == some t) = false →
      r ∈ (resetPurse db t).players) ∧
    (∀ r2 ∈ (resetPurse db t).players, (r2.team_id == some t) = false) ∧
    ((resetTeamRow db t).players = db.players ∧
     (∀ r2 ∈ (resetTeamRow db t).teams, (r2.id == t) = true →
       r2.purse_remaining = 1000000000 ∧ r2.players_count = 0) ∧
     resetPurse db t = returnTeamPlayers (resetTeamRow db t) t) := by
  refine ⟨?_, ?_, ?_, ?_, rfl, ?_, rfl⟩
  · intro r2 hr2 hid
    obtain ⟨r, hr, hrew⟩ := List.mem_map.mp hr2
    rw [← hrew] at hid
    rw [resetTeamUpd_id] at hid
    rw [← hrew]
    simp [resetTeamUpd, hid]
  · intro r hr hmatch
    have h2 : returnPlayerUpd t r =
        { r with is_sold := false, current_price := none,
                 team_id := none } := by
      simp [returnPlayerUpd, hmatch]
    have h3 := List.mem_map_of_mem (returnPlayerUpd t) hr
    rw [h2] at h3
    exact h3
  · intro r hr hne
    exact mem_map_self hr (by simp [returnPlayerUpd, hne])
  · intro r2 hr2
    obtain ⟨r, hr, hrew⟩ := List.mem_map.mp hr2
    rw [← hrew]
    by_cases h : (r.team_id == some t) = true
    · simp [returnPlayerUpd, h]
    · have h2 : (r.team_id == some t) = false := by simpa using h
      simp [returnPlayerUpd, h2]
  · intro r2 hr2 hid
    obtain ⟨r, hr, hrew⟩ := List.mem_map.mp hr2
    rw [← hrew] at hid
    rw [resetTeamUpd_id] at hid
    rw [← hrew]
    simp [resetTeamUpd, hid]

/-- C9 witness: resetting team 20 of the concrete database clears the
previously sold player 11 and restores the purse, and the intermediate
state still shows player 11 as sold. -/
theorem resetPurse_spec_witness :
    { exPlayerSold with is_sold := false, current_price := none, team_id := none } ∈ (resetPurse exDb 20).players ∧
    (resetTeamRow exDb 20).players = exDb.players :=
  ⟨(resetPurse_spec exDb 20).2.1 exPlayerSold (by decide) (by decide),
   (resetPurse_spec exDb 20).2.2.2.2.1⟩

/-- Every operation rewrites the auctions table row-by-row with a
function that preserves `player_id`. -/
theorem step_auctions_shape (db : DB) (o : Op) :
    ∃ f : Auction → Auction, (∀ r, (f r).player_id = r.player_id) ∧
      (step db o).auctions = db.auctions.map f := by
  cases o with
  | sellOp p t a price =>
    cases hsp : sell_player db p t a price with
    | ok db2 =>
      obtain ⟨-, -, hdb⟩ := sell_player_ok_elim hsp
      refine ⟨sellAuctionUpd a t price,
        sellAuctionUpd_player_id a t price, ?_⟩
      simp [step, applySold, hsp, hdb, sellApply]
    | error e =>
      refine ⟨id, fun r => rfl, ?_⟩
      simp [step, applySold, hsp]
  | unsoldOp a =>
    exact ⟨deactivateUpd a, deactivateUpd_player_id a, rfl⟩
  | resetOp t =>
    refine ⟨id, fun r => rfl, ?_⟩
    simp [step, resetPurse, returnTeamPlayers, resetTeamRow]

/-- C10: the UNIQUE constraint on auctions.player_id keeps at most one
listing row — active or not — per player in every reachable state: an
insert that would duplicate a player is rejected and no settlement
operation changes a row's player_id; consequently `startAuction` for a
player whose earlier listing was closed fails with the uniqueness
violation instead of creating a fresh listing. -/
theorem auctions_unique_invariant :
    (∀ (db : DB) (row : Auction) (db2 : DB), auctionsUnique db →
      insertAuction db row = Except.ok db2 → auctionsUnique db2) ∧
    (∀ (db : DB) (o : Op), auctionsUnique db →
      auctionsUnique (step db o)) ∧
    (∀ (db : DB) (p : Player) (e n : Nat) (r : Auction),
      r ∈ db.auctions → r.player_id = p.id → r.is_active = false →
      startAuction none db p e n =
        Except.error StartError.dbUniqueViolation) := by
  refine ⟨?_, ?_, ?_⟩
  · intro db row db2 huniq hins
    by_cases hany : (db.auctions.any
        fun r => r.player_id == row.player_id) = true
    · simp [insertAuction, hany] at hins
    · have h2 : (db.auctions.any
          fun r => r.player_id == row.player_id) = false := by
        simpa using hany
      have hins2 : db2 = { db with auctions := db.auctions ++ [row] } := by
        simp [insertAuction, h2] at hins
        exact hins.symm
      rw [hins2]
      show (db.auctions ++ [row]).Pairwise
        (fun x y => x.player_id ≠ y.player_id)
      rw [List.pairwise_append]
      refine ⟨huniq, List.pairwise_singleton _ _, ?_⟩
      intro x hx y hy hxy
      have hyr : y = row := by simpa using hy
      rw [hyr] at hxy
      have hc : (db.auctions.any
          fun s => s.player_id == row.player_id) = true :=
        List.any_eq_true.mpr ⟨x, hx, by simp [hxy]⟩
      rw [hc] at h2
      cases h2
  · intro db o huniq
    obtain ⟨f, hf, hshape⟩ := step_auctions_shape db o
    show (step db o).auctions.Pairwise
      (fun x y => x.player_id ≠ y.player_id)
    rw [hshape]
    refine List.Pairwise.map f ?_ huniq
    intro x y hxy
    rw [hf x, hf y]
    exact hxy
  · intro db p e n r hr hpid hinact
    have hany : (db.auctions.any
        fun x => x.player_id == (startRow p e n).player_id) = true :=
      List.any_eq_true.mpr ⟨r, hr, by simp [startRow, hpid]⟩
    simp [startAuction, insertAuction, hany]

/-- C10 witness: re-auctioning player 10, whose earlier listing 30 is
closed, fails with the uniqueness violation; and the concrete database
satisfies the per-player uniqueness invariant. -/
theorem auctions_unique_invariant_witness :
    startAuction none exDbClosed exPlayer 1 77 =
      Except.error StartError.dbUniqueViolation ∧
    auctionsUnique (step exDbClosed (Op.unsoldOp 30)) :=
  ⟨auctions_unique_invariant.2.2 exDbClosed exPlayer 1 77 exAuctionClosed
     (by decide) (by decide) (by decide),
   auctions_unique_invariant.2.1 exDbClosed (Op.unsoldOp 30)
     (by simp [auctionsUnique, exDbClosed])⟩

end IplAuction
